import Mathlib

/-!
Shallow embedding of the generative p5.js artwork in src/sketch.js.

Numeric values computed by the sketch are modelled over the rationals
(the source arithmetic is plain field arithmetic on IEEE doubles; every
claim under study concerns the exact real-number formulas). Wall-clock
time in milliseconds is modelled as a natural number. p5.js library
helpers used by the sketch (map, constrain, lerp) are embedded from
their documented definitions, which the sketch relies on.
-/

namespace Sketch

/-- p5.js map(value, start1, stop1, start2, stop2) without clamping:
linear remap of one interval onto another. -/
def p5map (v a b c d : ℚ) : ℚ := c + (d - c) * (v - a) / (b - a)

/-- p5.js constrain(v, lo, hi): clamp v into [lo, hi]. -/
def constrain (v lo hi : ℚ) : ℚ := min (max v lo) hi

/-- p5.js lerp(a, b, t) = a + (b - a) * t. -/
def lerp (a b t : ℚ) : ℚ := a + (b - a) * t

/-- Total duration for one full loop in milliseconds (src/sketch.js line 20). -/
def globalLoopDuration : ℚ := 15000

/-- easeInOutCubic from src/sketch.js lines 676-678:
x < 0.5 ? 4 * x * x * x : 1 - pow(-2 * x + 2, 3) / 2. -/
def easeInOutCubic (x : ℚ) : ℚ :=
  if x < 0.5 then 4 * x * x * x else 1 - (-2 * x + 2) ^ 3 / 2

/-- The raw (pre-easing) master progress computed by draw()
(src/sketch.js lines 640-651) from the time already reduced into the
loop: rises via map(timeInLoop, 0, halfLoop, 0, 1) on the first half,
falls via map(timeInLoop, halfLoop, globalLoopDuration, 1, 0) on the
second half. -/
def rawMasterP (timeInLoop : ℚ) : ℚ :=
  let halfLoop := globalLoopDuration / 2
  if timeInLoop < halfLoop then
    p5map timeInLoop 0 halfLoop 0 1
  else
    p5map timeInLoop halfLoop globalLoopDuration 1 0

/-- The eased master progress draw() produces at wall-clock time
now (milliseconds): timeInLoop = now % globalLoopDuration, triangle
map, then easeInOutCubic (src/sketch.js lines 636-654). -/
def masterPAt (now : ℕ) : ℚ :=
  easeInOutCubic (rawMasterP ((now % 15000 : ℕ) : ℚ))

/-! ## Circle layer staging (Circle.display, src/sketch.js lines 205-274) -/

/-- this.innerDuration (src/sketch.js line 215). -/
def innerDuration : ℚ := 800

/-- this.middleDuration (src/sketch.js line 216). -/
def middleDuration : ℚ := 1200

/-- this.outerDuration (src/sketch.js line 217). -/
def outerDuration : ℚ := 1500

/-- this.totalDuration = innerDuration + middleDuration + outerDuration
(src/sketch.js line 220). -/
def totalDuration : ℚ := innerDuration + middleDuration + outerDuration

/-- pInner = constrain(t / innerDuration, 0, 1) (src/sketch.js line 255). -/
def pInner (t : ℚ) : ℚ := constrain (t / innerDuration) 0 1

/-- pMiddle = constrain((t - innerDuration) / middleDuration, 0, 1)
(src/sketch.js lines 258-261). -/
def pMiddle (t : ℚ) : ℚ := constrain ((t - innerDuration) / middleDuration) 0 1

/-- pOuter = constrain((t - (innerDuration + middleDuration)) / outerDuration, 0, 1)
(src/sketch.js lines 264-267). -/
def pOuter (t : ℚ) : ℚ :=
  constrain ((t - (innerDuration + middleDuration)) / outerDuration) 0 1

/-- The triple of layer progresses Circle.display computes from masterP:
virtual time t = masterP * totalDuration, then the three constrained
ratios (src/sketch.js lines 248-267). -/
def layerProgress (masterP : ℚ) : ℚ × ℚ × ℚ :=
  let t := masterP * totalDuration
  (pInner t, pMiddle t, pOuter t)

/-! ## Songline network (src/sketch.js lines 31-33, 102-160) -/

/-- lineDelay = 150 ms between successive line starts (src/sketch.js line 32). -/
def lineDelay : ℚ := 150

/-- lineGrowDuration = 800 ms for one line to grow (src/sketch.js line 33). -/
def lineGrowDuration : ℚ := 800

/-- A connectable node: the centre coordinates read from a Circle by
prepareNetworkLines (it uses only c.x and c.y). -/
structure Node where
  x : ℚ
  y : ℚ
deriving DecidableEq, Repr

/-- A precomputed line segment entry of networkLines
(src/sketch.js lines 114-119). -/
structure Segment where
  x1 : ℚ
  y1 : ℚ
  x2 : ℚ
  y2 : ℚ
deriving DecidableEq, Repr

/-- The segment record pushed for a retained pair (src/sketch.js lines 114-119). -/
def mkSegment (c1 c2 : Node) : Segment := ⟨c1.x, c1.y, c2.x, c2.y⟩

/-- The retention test dist(c1.x, c1.y, c2.x, c2.y) < width / 2.8
(src/sketch.js lines 110-113), encoded by comparing squared Euclidean
distance with the squared threshold, which is equivalent for a positive
threshold (the equivalence with the square-root form is proved in the
distance-threshold theorem below). -/
def connects (w : ℚ) (c1 c2 : Node) : Prop :=
  (c1.x - c2.x) ^ 2 + (c1.y - c2.y) ^ 2 < (w / 2.8) ^ 2

instance (w : ℚ) (c1 c2 : Node) : Decidable (connects w c1 c2) := by
  unfold connects; infer_instance

/-- prepareNetworkLines (src/sketch.js lines 102-123): the nested scan
for i ascending, for j from i+1 ascending, pushing a segment when the
distance test passes. The double index loop over the array is rendered
as structural recursion: the head is paired with every later node in
order, then the scan continues on the tail. -/
def prepareNetworkLines (w : ℚ) : List Node → List Segment
  | [] => []
  | c1 :: rest =>
      rest.filterMap
        (fun c2 => if connects w c1 c2 then some (mkSegment c1 c2) else none)
      ++ prepareNetworkLines w rest

/-- drawNetworkLines (src/sketch.js lines 135-160), as the per-segment
drawing decisions of one frame: entry i is none when its constrained
local progress is 0 (the code draws only when p > 0), otherwise the
drawn line from the fixed start point to the lerped current endpoint. -/
def drawNetworkLines (lines : List Segment) (masterP : ℚ) :
    List (Option (ℚ × ℚ × ℚ × ℚ)) :=
  let totalNetworkTime := ((lines.length : ℚ) - 1) * lineDelay + lineGrowDuration
  let now := masterP * totalNetworkTime
  lines.enum.map (fun q =>
    let startT : ℚ := (q.1 : ℚ) * lineDelay
    let p := constrain ((now - startT) / lineGrowDuration) 0 1
    if 0 < p then
      some (q.2.x1, q.2.y1, lerp q.2.x1 q.2.x2 p, lerp q.2.y1 q.2.y2 p)
    else none)

/-! ## Pattern layer renderers (src/sketch.js lines 345-594)

The per-layer generators are embedded as functions from (pattern type,
base radius r, progress p) to the list of drawing primitives they emit,
in emission order. One loop iteration of the source becomes one list
entry. A ring of irregular blobs (the inner loop of the dots patterns)
is kept as a single primitive carrying its radius and spacing, because
its blob count, floor(TWO_PI * radius / spacing), does not depend on
the progress p; only the set of ring radii does. Per-vertex random
jitter, colours and stroke settings are style data that do not affect
which primitives are emitted, and are omitted. -/

/-- The number of naturals n with (n : ℚ) < q: the iteration count of
a counted loop for (i = 0; i < q; i++). -/
def natsLT (q : ℚ) : ℕ := (⌈q⌉).toNat

/-- natsLT counts exactly the loop indices. -/
lemma lt_natsLT_iff (q : ℚ) (n : ℕ) : n < natsLT q ↔ (n : ℚ) < q := by
  unfold natsLT
  rw [Int.lt_toNat, Int.lt_ceil]
  norm_cast

/-- The successive values of the loop for (v = a; v < b; v += s), for a
positive step s: a + s * k for each k with (b - a) / s above k. -/
def stepValues (a s b : ℚ) : List ℚ :=
  (List.range (natsLT ((b - a) / s))).map (fun k => a + s * k)

/-- A drawing primitive emitted by a layer generator. -/
inductive DrawOp where
  | handCircle (radius : ℚ)
  | blobRing (radius : ℚ) (spacing : ℚ)
  | blob (offset : ℚ) (size : ℚ)
  | spoke
  | uShape
  | ringContour (radius : ℚ)
  | wavyContour (points : ℕ) (closed : Bool)
  | spiral (points : ℕ)
deriving DecidableEq, Repr

/-- Pattern 0 of the outer layer (src/sketch.js lines 365-382): rings
of irregular blobs from radius 0.65r stepping by the dot spacing 0.09r
while below 0.95r * p. -/
def drawOuterDotsPattern (r p : ℚ) : List DrawOp :=
  (stepValues (r * 0.65) (r * 0.09) (r * 0.95 * p)).map
    (fun radius => .blobRing radius (r * 0.09))

/-- Pattern 1 of the outer layer (src/sketch.js lines 385-401): one
line-plus-tip-blob spoke per index i with i < 40 * p. -/
def drawOuterRadiatingLinesPattern (r p : ℚ) : List DrawOp :=
  List.replicate (natsLT (40 * p)) .spoke

/-- Pattern 2 of the outer layer (src/sketch.js lines 403-422): two
hand-drawn rings at map(i, 0, 1, 0.65r, 0.9r), scaled by p when p < 1. -/
def drawOuterStripedRingPattern (r p : ℚ) : List DrawOp :=
  (List.range 2).map (fun i =>
    let radius := p5map (i : ℚ) 0 (2 - 1) (r * 0.65) (r * 0.9)
    .handCircle (if p < 1 then radius * p else radius))

/-- Pattern 3 of the outer layer (src/sketch.js lines 426-453): one
wavy contour of floor(240 * p) + 1 curve vertices (the loop runs j = 0
while j <= totalPoints), closed only when not p < 1. -/
def drawOuterRadialDashPattern (r p : ℚ) : List DrawOp :=
  [.wavyContour ((⌊240 * p⌋ + 1).toNat) (if p < 1 then false else true)]

/-- displayOuterAnimated (src/sketch.js lines 345-363): nothing when
p ≤ 0, otherwise dispatch on the outer pattern type; a type outside
0-3 matches no switch case and draws nothing. -/
def displayOuterAnimated (typ : ℕ) (r p : ℚ) : List DrawOp :=
  if p ≤ 0 then []
  else match typ with
    | 0 => drawOuterDotsPattern r p
    | 1 => drawOuterRadiatingLinesPattern r p
    | 2 => drawOuterStripedRingPattern r p
    | 3 => drawOuterRadialDashPattern r p
    | _ => []

/-- Pattern 0 of the middle layer (src/sketch.js lines 481-493): rings
of blobs from radius 0.2r stepping by 0.04r * 1.5 while below 0.5r * p. -/
def drawMiddleConcentricDotsPattern (r p : ℚ) : List DrawOp :=
  (stepValues (r * 0.2) (r * 0.04 * 1.5) (r * 0.5 * p)).map
    (fun rad => .blobRing rad (r * 0.04 * 1.5))

/-- Pattern 1 of the middle layer (src/sketch.js lines 497-516): one
U-shape arc per index i with i < 8 * p. -/
def drawMiddleUshapePattern (r p : ℚ) : List DrawOp :=
  List.replicate (natsLT (8 * p)) .uShape

/-- Pattern 2 of the middle layer (src/sketch.js lines 519-529): two
hand-drawn rings of radii 0.45r * p and 0.3r * p. -/
def drawMiddleSolidRings (r p : ℚ) : List DrawOp :=
  [.handCircle (r * 0.45 * p), .handCircle (r * 0.3 * p)]

/-- Pattern 3 of the middle layer (src/sketch.js lines 532-559): five
jittered ring contours at map(j, 0, 4, 0.3r, 0.5r) * p. -/
def drawMiddleConcentricRings (r p : ℚ) : List DrawOp :=
  (List.range 5).map (fun j =>
    .ringContour (p5map (j : ℚ) 0 (5 - 1) (r * 0.3) (r * 0.5) * p))

/-- displayMiddleAnimated (src/sketch.js lines 458-477). -/
def displayMiddleAnimated (typ : ℕ) (r p : ℚ) : List DrawOp :=
  if p ≤ 0 then []
  else match typ with
    | 0 => drawMiddleConcentricDotsPattern r p
    | 1 => drawMiddleUshapePattern r p
    | 2 => drawMiddleSolidRings r p
    | 3 => drawMiddleConcentricRings r p
    | _ => []

/-- displayInnerAnimated (src/sketch.js lines 564-594): nothing when
p ≤ 0; otherwise the background circle of radius 0.25r * p, then for
type 0 a single central blob of size 0.15r * p, else the spiral
polyline of floor(50 * p) curve vertices (the loop runs i = 0 while
i < total, total = floor(50 * p)). -/
def displayInnerAnimated (typ : ℕ) (r p : ℚ) : List DrawOp :=
  if p ≤ 0 then []
  else
    .handCircle (r * 0.25 * p) ::
      (if typ = 0 then [.blob 0 (r * 0.15 * p)]
       else [.spiral (⌊50 * p⌋).toNat])

/-- The fully resolved static form of the outer layer: the value each
outer generator emits at progress 1 (4 blob rings; 40 spokes; the two
rings at their unscaled radii; the closed 241-vertex wavy contour). -/
def outerFullForm (typ : ℕ) (r : ℚ) : List DrawOp :=
  match typ with
  | 0 => [.blobRing (r * 0.65) (r * 0.09), .blobRing (r * 0.74) (r * 0.09),
          .blobRing (r * 0.83) (r * 0.09), .blobRing (r * 0.92) (r * 0.09)]
  | 1 => List.replicate 40 .spoke
  | 2 => [.handCircle (r * 0.65), .handCircle (r * 0.9)]
  | 3 => [.wavyContour 241 true]
  | _ => []

/-- The fully resolved static form of the middle layer at progress 1
(5 blob rings; 8 U-shapes; the two solid rings; 5 ring contours). -/
def middleFullForm (typ : ℕ) (r : ℚ) : List DrawOp :=
  match typ with
  | 0 => [.blobRing (r * 0.2) (r * 0.06), .blobRing (r * 0.26) (r * 0.06),
          .blobRing (r * 0.32) (r * 0.06), .blobRing (r * 0.38) (r * 0.06),
          .blobRing (r * 0.44) (r * 0.06)]
  | 1 => List.replicate 8 .uShape
  | 2 => [.handCircle (r * 0.45), .handCircle (r * 0.3)]
  | 3 => [.ringContour (r * 0.3), .ringContour (r * 0.35),
          .ringContour (r * 0.4), .ringContour (r * 0.45),
          .ringContour (r * 0.5)]
  | _ => []

/-- The fully resolved static form of the inner layer at progress 1
(background circle at 0.25r, then the central blob at size 0.15r or
the 50-vertex spiral). -/
def innerFullForm (typ : ℕ) (r : ℚ) : List DrawOp :=
  if typ = 0 then [.handCircle (r * 0.25), .blob 0 (r * 0.15)]
  else [.handCircle (r * 0.25), .spiral 50]

/-! ## Layout generation (src/sketch.js lines 66-90, 205-226)

The p5.js uniform random source is modelled as a stream g : ℕ → ℚ of
successive outputs of random() in [0,1), consumed one draw per call in
program order: random(n) is the next draw scaled by n, and random(arr)
picks the element indexed by floor of the next draw scaled by the
array length. Each function returns the next unused stream position
alongside its result. -/

/-- An RGB colour value. -/
abbrev Color := ℕ × ℕ × ℕ

/-- circleBasePalette (src/sketch.js lines 614-620). -/
def circleBasePalette : List Color :=
  [(90, 40, 20), (60, 30, 15), (40, 45, 35), (110, 60, 30), (20, 20, 20)]

/-- patternPalette (src/sketch.js lines 622-629). -/
def patternPalette : List Color :=
  [(255, 255, 255), (255, 240, 200), (255, 215, 0), (255, 140, 80),
   (160, 180, 140), (200, 200, 210)]

/-- p5.js random(array): the element at index floor(u * length) for a
draw u in [0,1). -/
def randPick (palette : List Color) (u : ℚ) : Color :=
  palette.getD ((⌊u * palette.length⌋).toNat) (0, 0, 0)

/-- A Circle object: position, radius, the pattern types and colours
sampled once at construction (src/sketch.js lines 205-226). -/
structure Circle where
  x : ℚ
  y : ℚ
  r : ℚ
  outerPatternType : ℕ
  middlePatternType : ℕ
  innerPatternType : ℕ
  innerBaseColor : Color
  innerCol : Color
  middleCol : Color
  outerCol : Color
deriving DecidableEq, Repr

/-- new Circle(x, y, r) (src/sketch.js lines 205-226): consumes seven
random draws, in source order: floor(random(4)), floor(random(4)),
floor(random(2)), then the four palette picks. Returns the circle and
the next stream position. -/
def mkCircle (g : ℕ → ℚ) (k : ℕ) (x y r : ℚ) : Circle × ℕ :=
  (⟨x, y, r,
    (⌊g k * 4⌋).toNat,
    (⌊g (k + 1) * 4⌋).toNat,
    (⌊g (k + 2) * 2⌋).toNat,
    randPick circleBasePalette (g (k + 3)),
    randPick patternPalette (g (k + 4)),
    randPick patternPalette (g (k + 5)),
    randPick patternPalette (g (k + 6))⟩, k + 7)

/-- The loop body of addCirclesOnLine (src/sketch.js lines 79-90),
recursing on the remaining count with the loop index i and the stream
position k: place the circle at (startX + stepX * i, startY + stepY * i),
then consume one draw for the random(1) < 0.7 node selection. Returns
(circles pushed, connectable nodes pushed, next stream position). -/
def addCirclesOnLineAux (g : ℕ → ℚ) (startX startY stepX stepY r : ℚ) :
    ℕ → ℕ → ℕ → List Circle × List Circle × ℕ
  | 0, _, k => ([], [], k)
  | n + 1, i, k =>
      let x := startX + stepX * (i : ℚ)
      let y := startY + stepY * (i : ℚ)
      let ck := mkCircle g k x y r
      let sel := g ck.2
      let rest := addCirclesOnLineAux g startX startY stepX stepY r n (i + 1) (ck.2 + 1)
      (ck.1 :: rest.1,
       if sel < 0.7 then ck.1 :: rest.2.1 else rest.2.1,
       rest.2.2)

/-- addCirclesOnLine(count, startX, startY, stepX, stepY, r)
(src/sketch.js lines 79-90), starting at loop index 0. -/
def addCirclesOnLine (g : ℕ → ℚ) (count : ℕ) (startX startY stepX stepY r : ℚ)
    (k : ℕ) : List Circle × List Circle × ℕ :=
  addCirclesOnLineAux g startX startY stepX stepY r count 0 k

/-- createFixedLayout (src/sketch.js lines 66-78): five diagonal lines
of five circles, radius width / 8, with the stream threaded through in
call order. Returns (circles, connectedNodes). -/
def createFixedLayout (g : ℕ → ℚ) (width height : ℚ) :
    List Circle × List Circle :=
  let r := width / 8
  let l1 := addCirclesOnLine g 5 (width / 7.1) (height / 7.1)
    (width / 4.8) (height / 4.8) r 0
  let l2 := addCirclesOnLine g 5 (width / 2) (height * 2 / 20)
    (width / 4.8) (height / 4.8) r l1.2.2
  let l3 := addCirclesOnLine g 5 (width * 4 / 5) 0
    (width / 4.8) (height / 4.8) r l2.2.2
  let l4 := addCirclesOnLine g 5 (width / 20) (height / 2.2)
    (width / 4.8) (height / 4.8) r l3.2.2
  let l5 := addCirclesOnLine g 5 0 (height * 8 / 10)
    (width / 4.8) (height / 4.8) r l4.2.2
  (l1.1 ++ l2.1 ++ l3.1 ++ l4.1 ++ l5.1,
   l1.2.1 ++ l2.2.1 ++ l3.2.1 ++ l4.2.1 ++ l5.2.1)

/-- The 25 motif centres the layout is specified to produce: for each
of the five fixed line starts, five centres in arithmetic progression
with step (width / 4.8, height / 4.8). -/
def expectedCenters (w h : ℚ) : List (ℚ × ℚ) :=
  ([(w / 7.1, h / 7.1), (w / 2, h * 2 / 20), (w * 4 / 5, 0),
    (w / 20, h / 2.2), (0, h * 8 / 10)] : List (ℚ × ℚ)).flatMap
    (fun st => (List.range 5).map
      (fun (i : ℕ) => (st.1 + w / 4.8 * (i : ℚ), st.2 + h / 4.8 * (i : ℚ))))

/-! ## Drawing-state traces (src/sketch.js lines 135-160, 237-274, 288-308)

To reason about the ambient canvas state (transform and style), each
render function is also embedded as the trace of state operations it
emits: push (save the current state on the state stack), pop (restore
the most recent saved state), or an arbitrary mutation of the current
state. Every p5.js call that sets style or transform, and every drawing
call, is conservatively modelled as an uninterpreted transformer of the
current state, supplied by a record of primitives; a
beginShape/vertex/endShape block is one such transformer. The blob
count of a dots ring, floor(TWO_PI * radius / spacing), involves pi and
is kept as an uninterpreted count in the record; the restoration
theorems hold for every count. -/

/-- One token of a drawing-state trace. -/
inductive Tok (γ : Type) where
  | push
  | pop
  | mutate (f : γ → γ)

/-- The uninterpreted state transformers for the p5.js primitives the
sketch calls, and the uninterpreted blob count of a dots ring. -/
structure Prims (γ : Type) where
  fill : γ → γ
  stroke : γ → γ
  noFill : γ → γ
  noStroke : γ → γ
  strokeWeight : γ → γ
  strokeCap : γ → γ
  translate : γ → γ
  rotate : γ → γ
  shape : γ → γ
  line : γ → γ
  arc : γ → γ
  ringDotCount : ℚ → ℚ → ℕ

/-- Run a trace on (current state, saved-state stack): push saves a
copy of the current state, pop restores and discards the latest saved
state (failing on an empty stack), a mutation rewrites the current
state. -/
def runTrace {γ : Type} : List (Tok γ) → γ × List γ → Option (γ × List γ)
  | [], st => some st
  | Tok.mutate f :: ts, (c, s) => runTrace ts (f c, s)
  | Tok.push :: ts, (c, s) => runTrace ts (c, c :: s)
  | Tok.pop :: ts, (_, []) => none
  | Tok.pop :: ts, (_, c2 :: s2) => runTrace ts (c2, s2)

/-- A trace is stack neutral when it never underflows and returns the
saved-state stack exactly as it found it, from every start state. -/
def StackNeutral {γ : Type} (t : List (Tok γ)) : Prop :=
  ∀ (c : γ) (s : List γ), ∃ c2, runTrace t (c, s) = some (c2, s)

/-- The trace of drawIrregularBlob (src/sketch.js lines 288-308):
fill and noStroke are set before the push; the translate, rotate and
shape block sit between the push and its matching pop. -/
def drawIrregularBlobTrace {γ : Type} (P : Prims γ) : List (Tok γ) :=
  Tok.mutate P.fill :: Tok.mutate P.noStroke ::
    (Tok.push :: ([Tok.mutate P.translate, Tok.mutate P.rotate, Tok.mutate P.shape]
      ++ [Tok.pop]))

/-- The trace of drawHandDrawnCircle (src/sketch.js lines 310-328):
fill/noFill, stroke/noStroke, optional strokeWeight, then the shape
block; no push or pop. -/
def drawHandDrawnCircleTrace {γ : Type} (P : Prims γ) : List (Tok γ) :=
  [Tok.mutate P.fill, Tok.mutate P.stroke, Tok.mutate P.strokeWeight, Tok.mutate P.shape]

/-- The trace of drawOuterDotsPattern (src/sketch.js lines 365-382):
for each ring radius, one blob per ring dot. -/
def drawOuterDotsPatternTrace {γ : Type} (P : Prims γ) (r p : ℚ) :
    List (Tok γ) :=
  (stepValues (r * 0.65) (r * 0.09) (r * 0.95 * p)).flatMap
    (fun radius => (List.range (P.ringDotCount radius (r * 0.09))).flatMap
      (fun _ => drawIrregularBlobTrace P))

/-- The trace of drawOuterRadiatingLinesPattern (src/sketch.js lines
385-401): stroke settings, then per spoke a push, rotate, line, blob
and the matching pop. -/
def drawOuterRadiatingLinesPatternTrace {γ : Type} (P : Prims γ) (p : ℚ) :
    List (Tok γ) :=
  Tok.mutate P.stroke :: Tok.mutate P.strokeWeight :: Tok.mutate P.strokeCap ::
    (List.range (natsLT (40 * p))).flatMap
      (fun _ => Tok.push ::
        ((Tok.mutate P.rotate :: Tok.mutate P.line :: drawIrregularBlobTrace P)
          ++ [Tok.pop]))

/-- The trace of drawOuterStripedRingPattern (src/sketch.js lines
403-422). -/
def drawOuterStripedRingPatternTrace {γ : Type} (P : Prims γ) :
    List (Tok γ) :=
  Tok.mutate P.noFill :: Tok.mutate P.stroke ::
    (List.range 2).flatMap
      (fun _ => Tok.mutate P.strokeWeight :: drawHandDrawnCircleTrace P)

/-- The trace of drawOuterRadialDashPattern (src/sketch.js lines
426-453). -/
def drawOuterRadialDashPatternTrace {γ : Type} (P : Prims γ) :
    List (Tok γ) :=
  [Tok.mutate P.noFill, Tok.mutate P.stroke, Tok.mutate P.strokeWeight,
   Tok.mutate P.shape]

/-- The trace of displayOuterAnimated (src/sketch.js lines 345-363). -/
def displayOuterAnimatedTrace {γ : Type} (P : Prims γ) (typ : ℕ) (r p : ℚ) :
    List (Tok γ) :=
  if p ≤ 0 then []
  else match typ with
    | 0 => drawOuterDotsPatternTrace P r p
    | 1 => drawOuterRadiatingLinesPatternTrace P p
    | 2 => drawOuterStripedRingPatternTrace P
    | 3 => drawOuterRadialDashPatternTrace P
    | _ => []

/-- The trace of drawMiddleConcentricDotsPattern (src/sketch.js lines
481-493). -/
def drawMiddleConcentricDotsPatternTrace {γ : Type} (P : Prims γ) (r p : ℚ) :
    List (Tok γ) :=
  (stepValues (r * 0.2) (r * 0.04 * 1.5) (r * 0.5 * p)).flatMap
    (fun rad => (List.range (P.ringDotCount rad (r * 0.04 * 1.5))).flatMap
      (fun _ => drawIrregularBlobTrace P))

/-- The trace of drawMiddleUshapePattern (src/sketch.js lines 497-516):
per U-shape a push, rotate, translate, rotate, arc and the matching
pop. -/
def drawMiddleUshapePatternTrace {γ : Type} (P : Prims γ) (p : ℚ) :
    List (Tok γ) :=
  Tok.mutate P.noFill :: Tok.mutate P.stroke :: Tok.mutate P.strokeWeight ::
    (List.range (natsLT (8 * p))).flatMap
      (fun _ => Tok.push ::
        ([Tok.mutate P.rotate, Tok.mutate P.translate, Tok.mutate P.rotate,
          Tok.mutate P.arc] ++ [Tok.pop]))

/-- The trace of drawMiddleSolidRings (src/sketch.js lines 519-529). -/
def drawMiddleSolidRingsTrace {γ : Type} (P : Prims γ) : List (Tok γ) :=
  Tok.mutate P.noFill :: Tok.mutate P.stroke :: Tok.mutate P.strokeWeight ::
    (drawHandDrawnCircleTrace P ++ drawHandDrawnCircleTrace P)

/-- The trace of drawMiddleConcentricRings (src/sketch.js lines
532-559). -/
def drawMiddleConcentricRingsTrace {γ : Type} (P : Prims γ) :
    List (Tok γ) :=
  Tok.mutate P.noFill :: Tok.mutate P.stroke ::
    (List.range 5).flatMap
      (fun _ => [Tok.mutate P.strokeWeight, Tok.mutate P.shape])

/-- The trace of displayMiddleAnimated (src/sketch.js lines 458-477). -/
def displayMiddleAnimatedTrace {γ : Type} (P : Prims γ) (typ : ℕ) (r p : ℚ) :
    List (Tok γ) :=
  if p ≤ 0 then []
  else match typ with
    | 0 => drawMiddleConcentricDotsPatternTrace P r p
    | 1 => drawMiddleUshapePatternTrace P p
    | 2 => drawMiddleSolidRingsTrace P
    | 3 => drawMiddleConcentricRingsTrace P
    | _ => []

/-- The trace of displayInnerAnimated (src/sketch.js lines 564-594):
the background circle, then the central blob or the spiral polyline
with its style settings. -/
def displayInnerAnimatedTrace {γ : Type} (P : Prims γ) (typ : ℕ) (p : ℚ) :
    List (Tok γ) :=
  if p ≤ 0 then []
  else
    drawHandDrawnCircleTrace P ++
      (if typ = 0 then drawIrregularBlobTrace P
       else [Tok.mutate P.noFill, Tok.mutate P.stroke, Tok.mutate P.strokeWeight,
             Tok.mutate P.shape])

/-- The trace of Circle.display (src/sketch.js lines 237-274): one push,
the translate, the occlusion disc, the three animated layers, and the
matching pop. -/
def displayTrace {γ : Type} (P : Prims γ) (typO typM typI : ℕ)
    (r masterP : ℚ) : List (Tok γ) :=
  Tok.push ::
    ((Tok.mutate P.translate :: drawHandDrawnCircleTrace P
      ++ displayInnerAnimatedTrace P typI (pInner (masterP * totalDuration))
      ++ displayMiddleAnimatedTrace P typM r (pMiddle (masterP * totalDuration))
      ++ displayOuterAnimatedTrace P typO r (pOuter (masterP * totalDuration)))
     ++ [Tok.pop])

/-- The trace of drawNetworkLines (src/sketch.js lines 135-160): one
push, the stroke settings, one line call per segment whose constrained
local progress is positive, and the matching pop. -/
def drawNetworkLinesTrace {γ : Type} (P : Prims γ) (lines : List Segment)
    (masterP : ℚ) : List (Tok γ) :=
  Tok.push ::
    ((Tok.mutate P.stroke :: Tok.mutate P.strokeWeight ::
      lines.enum.flatMap (fun q =>
        let now := masterP * (((lines.length : ℚ) - 1) * lineDelay
          + lineGrowDuration)
        let p := constrain ((now - (q.1 : ℚ) * lineDelay) / lineGrowDuration)
          0 1
        if 0 < p then [Tok.mutate P.line] else []))
     ++ [Tok.pop])

/-! ## Helper lemmas -/

/-- The easing function maps [0,1] into [0,1]. -/
lemma easeInOutCubic_mem (x : ℚ) (h0 : 0 ≤ x) (h1 : x ≤ 1) :
    0 ≤ easeInOutCubic x ∧ easeInOutCubic x ≤ 1 := by
  unfold easeInOutCubic
  split_ifs with h
  · constructor
    · positivity
    · nlinarith [mul_nonneg h0 h0, mul_nonneg (mul_nonneg h0 h0) h0]
  · push_neg at h
    have hy0 : (0:ℚ) ≤ -2 * x + 2 := by linarith
    have hy1 : -2 * x + 2 ≤ (1:ℚ) := by linarith
    constructor
    · nlinarith [pow_le_one₀ hy0 hy1 (n := 3)]
    · nlinarith [pow_nonneg hy0 3]

/-- The raw triangle wave, on one loop, is the two advertised linear ramps. -/
lemma rawMasterP_eq (u : ℚ) :
    rawMasterP u = if u < 7500 then u / 7500 else (15000 - u) / 7500 := by
  unfold rawMasterP p5map globalLoopDuration
  norm_num
  split_ifs with h
  · ring
  · ring

/-- The raw triangle wave maps [0, 15000) into [0,1]. -/
lemma rawMasterP_mem (u : ℚ) (h0 : 0 ≤ u) (h1 : u < 15000) :
    0 ≤ rawMasterP u ∧ rawMasterP u ≤ 1 := by
  rw [rawMasterP_eq]
  split_ifs with h
  · constructor <;> [positivity; skip]
    rw [div_le_one (by norm_num)]
    linarith
  · push_neg at h
    constructor
    · exact div_nonneg (by linarith) (by norm_num)
    · rw [div_le_one (by norm_num)]
      linarith

/-- The nested pairwise scan of prepareNetworkLines, generalized over
the starting index of the enumeration: pairing every node with every
strictly later node, outer index ascending then inner index ascending,
yields exactly the recursive scan. -/
lemma prepare_enumFrom (w : ℚ) (nodes : List Node) (n : ℕ) :
    (List.enumFrom n nodes).flatMap (fun p =>
      (List.enumFrom n nodes).filterMap (fun q =>
        if p.1 < q.1 ∧ connects w p.2 q.2
        then some (mkSegment p.2 q.2) else none))
    = prepareNetworkLines w nodes := by
  induction nodes generalizing n with
  | nil => simp [prepareNetworkLines]
  | cons c rest ih =>
    rw [List.enumFrom_cons, List.flatMap_cons, prepareNetworkLines]
    congr 1
    · -- head block: the head is paired with each later node in order
      rw [List.filterMap_cons]
      simp only [lt_irrefl, false_and, if_false]
      have hcongr :
          (List.enumFrom (n + 1) rest).filterMap (fun q =>
            if n < q.1 ∧ connects w c q.2
            then some (mkSegment c q.2) else none)
          = (List.enumFrom (n + 1) rest).filterMap (fun q =>
            if connects w c q.2 then some (mkSegment c q.2) else none) := by
        apply List.filterMap_congr
        intro q hq
        have hn : n + 1 ≤ q.1 := (List.mem_enumFrom hq).1
        have : n < q.1 := Nat.lt_of_lt_of_le (Nat.lt_succ_self n) hn
        simp [this]
      rw [hcongr]
      have hsnd := List.enumFrom_map_snd (n + 1) rest
      calc (List.enumFrom (n + 1) rest).filterMap (fun q =>
              if connects w c q.2 then some (mkSegment c q.2) else none)
          = ((List.enumFrom (n + 1) rest).map Prod.snd).filterMap (fun c2 =>
              if connects w c c2 then some (mkSegment c c2) else none) := by
            rw [List.filterMap_map]
            rfl
        _ = rest.filterMap (fun c2 =>
              if connects w c c2 then some (mkSegment c c2) else none) := by
            rw [hsnd]
    · -- tail block: later nodes never pair back with the head
      have hcongr :
          (List.enumFrom (n + 1) rest).flatMap (fun p =>
            ((n, c) :: List.enumFrom (n + 1) rest).filterMap (fun q =>
              if p.1 < q.1 ∧ connects w p.2 q.2
              then some (mkSegment p.2 q.2) else none))
          = (List.enumFrom (n + 1) rest).flatMap (fun p =>
            (List.enumFrom (n + 1) rest).filterMap (fun q =>
              if p.1 < q.1 ∧ connects w p.2 q.2
              then some (mkSegment p.2 q.2) else none)) := by
        apply List.flatMap_congr
        intro p hp
        rw [List.filterMap_cons]
        have hn : n + 1 ≤ p.1 := (List.mem_enumFrom hp).1
        have : ¬ p.1 < n := Nat.not_lt.mpr (Nat.le_of_succ_le hn)
        simp [this]
      rw [hcongr, ih]

/-- Membership in the precomputed segment list: a segment is retained
exactly when some index pair i < j of connectable nodes passes the
distance test and produces it. -/
lemma mem_prepareNetworkLines (w : ℚ) (nodes : List Node) (s : Segment) :
    s ∈ prepareNetworkLines w nodes ↔
      ∃ (i j : ℕ) (c1 c2 : Node),
        i < j ∧ nodes[i]? = some c1 ∧ nodes[j]? = some c2 ∧
        connects w c1 c2 ∧ s = mkSegment c1 c2 := by
  rw [← prepare_enumFrom w nodes 0]
  show s ∈ nodes.enum.flatMap _ ↔ _
  constructor
  · intro hs
    rw [List.mem_flatMap] at hs
    obtain ⟨p, hp, hs⟩ := hs
    rw [List.mem_filterMap] at hs
    obtain ⟨q, hq, hpq⟩ := hs
    by_cases hc : p.1 < q.1 ∧ connects w p.2 q.2
    · rw [if_pos hc] at hpq
      refine ⟨p.1, q.1, p.2, q.2, hc.1, ?_, ?_, hc.2, ?_⟩
      · exact List.mem_enum_iff_getElem?.mp hp
      · exact List.mem_enum_iff_getElem?.mp hq
      · exact (Option.some.inj hpq).symm
    · rw [if_neg hc] at hpq
      exact absurd hpq (by simp)
  · rintro ⟨i, j, c1, c2, hij, hi, hj, hc, rfl⟩
    rw [List.mem_flatMap]
    refine ⟨(i, c1), List.mem_enum_iff_getElem?.mpr hi, ?_⟩
    rw [List.mem_filterMap]
    exact ⟨(j, c2), List.mem_enum_iff_getElem?.mpr hj, by simp [hij, hc]⟩

/-- The squared-distance retention test is the strict Euclidean distance
comparison of the source, for a positive canvas width. -/
lemma connects_iff_dist (w : ℚ) (hw : 0 < w) (c1 c2 : Node) :
    connects w c1 c2 ↔
      Real.sqrt (((c1.x : ℝ) - (c2.x : ℝ)) ^ 2
          + ((c1.y : ℝ) - (c2.y : ℝ)) ^ 2) < (w : ℝ) / 2.8 := by
  have hw' : (0:ℝ) < (w : ℝ) := by exact_mod_cast hw
  rw [Real.sqrt_lt' (by positivity : (0:ℝ) < (w : ℝ) / 2.8)]
  unfold connects
  have h28 : ((2.8 : ℚ) : ℝ) = (2.8 : ℝ) := by norm_num
  rw [← h28]
  constructor
  · intro h
    exact_mod_cast h
  · intro h
    exact_mod_cast h

/-- Stepping from r * a to r * b by r * s visits the same indices as
stepping from a to b by s, for r nonzero. -/
lemma stepValues_mul (r a s b : ℚ) (hr : r ≠ 0) :
    stepValues (r * a) (r * s) (r * b) =
      (List.range (natsLT ((b - a) / s))).map (fun k => r * a + r * s * k) := by
  unfold stepValues
  rw [show r * b - r * a = r * (b - a) by ring, mul_div_mul_left _ _ hr]

/-- natsLT at the loop bound of the outer dots pattern. -/
lemma natsLT_outer_dots : natsLT (((0.95 : ℚ) - 0.65) / 0.09) = 4 := by
  unfold natsLT
  rw [show (((0.95 : ℚ) - 0.65) / 0.09) = 10 / 3 by norm_num]
  rw [show ⌈(10 / 3 : ℚ)⌉ = 4 by rw [Int.ceil_eq_iff] ; norm_num]
  rfl

/-- natsLT at the loop bound of the middle dots pattern. -/
lemma natsLT_middle_dots : natsLT (((0.5 : ℚ) - 0.2) / 0.06) = 5 := by
  unfold natsLT
  rw [show (((0.5 : ℚ) - 0.2) / 0.06) = 5 by norm_num]
  rw [show ⌈(5 : ℚ)⌉ = 5 by rw [Int.ceil_eq_iff] ; norm_num]
  rfl

/-- natsLT of a natural number literal cast into ℚ. -/
lemma natsLT_natCast (n : ℕ) : natsLT (n : ℚ) = n := by
  unfold natsLT
  rw [show ⌈((n : ℕ) : ℚ)⌉ = (n : ℤ) from Int.ceil_natCast n]
  exact Int.toNat_natCast n

/-- The centres produced by the line loop depend only on the line
parameters and loop indices, never on the random stream. -/
lemma addCirclesOnLineAux_centers (g : ℕ → ℚ) (sX sY pX pY r : ℚ) (n : ℕ) :
    ∀ (i k : ℕ),
      (addCirclesOnLineAux g sX sY pX pY r n i k).1.map (fun c => (c.x, c.y))
        = (List.range' i n).map
            (fun (j : ℕ) => (sX + pX * (j : ℚ), sY + pY * (j : ℚ))) := by
  induction n with
  | zero =>
    intro i k
    simp [addCirclesOnLineAux]
  | succ n ih =>
    intro i k
    rw [List.range'_succ]
    show ((addCirclesOnLineAux g sX sY pX pY r (n + 1) i k).1).map _ = _
    simp only [addCirclesOnLineAux]
    rw [List.map_cons, ih]
    rfl

/-- Every circle produced by the line loop has the passed radius. -/
lemma addCirclesOnLineAux_radius (g : ℕ → ℚ) (sX sY pX pY r : ℚ) (n : ℕ) :
    ∀ (i k : ℕ) (c : Circle),
      c ∈ (addCirclesOnLineAux g sX sY pX pY r n i k).1 → c.r = r := by
  induction n with
  | zero =>
    intro i k c hc
    simp [addCirclesOnLineAux] at hc
  | succ n ih =>
    intro i k c hc
    simp only [addCirclesOnLineAux, List.mem_cons] at hc
    rcases hc with hc | hc
    · rw [hc]
      rfl
    · exact ih (i + 1) _ c hc

/-- Running an appended trace is sequential composition. -/
lemma runTrace_append {γ : Type} (t u : List (Tok γ)) :
    ∀ st, runTrace (t ++ u) st = (runTrace t st).bind (runTrace u) := by
  induction t with
  | nil =>
    intro st
    simp [runTrace]
  | cons tok ts ih =>
    intro st
    obtain ⟨c, s⟩ := st
    cases tok with
    | mutate f =>
      simp only [List.cons_append, runTrace]
      exact ih _
    | push =>
      simp only [List.cons_append, runTrace]
      exact ih _
    | pop =>
      cases s with
      | nil => simp [runTrace]
      | cons c2 s2 =>
        simp only [List.cons_append, runTrace]
        exact ih _

/-- The empty trace is stack neutral. -/
lemma sn_nil {γ : Type} : StackNeutral ([] : List (Tok γ)) :=
  fun c _ => ⟨c, rfl⟩

/-- Prefixing a mutation preserves stack neutrality. -/
lemma sn_mut_cons {γ : Type} (f : γ → γ) (t : List (Tok γ))
    (h : StackNeutral t) : StackNeutral (Tok.mutate f :: t) := by
  intro c s
  obtain ⟨c2, e⟩ := h (f c) s
  exact ⟨c2, by simp only [runTrace]; exact e⟩

/-- Concatenating stack-neutral traces is stack neutral. -/
lemma sn_append {γ : Type} (t u : List (Tok γ))
    (h1 : StackNeutral t) (h2 : StackNeutral u) : StackNeutral (t ++ u) := by
  intro c s
  obtain ⟨c1, e1⟩ := h1 c s
  obtain ⟨c2, e2⟩ := h2 c1 s
  refine ⟨c2, ?_⟩
  rw [runTrace_append, e1]
  exact e2

/-- A push, any stack-neutral body, and the matching pop restore both
the current state and the stack exactly. -/
lemma runTrace_wrap {γ : Type} (u : List (Tok γ)) (h : StackNeutral u) :
    ∀ c s, runTrace (Tok.push :: (u ++ [Tok.pop])) (c, s) = some (c, s) := by
  intro c s
  simp only [runTrace]
  rw [runTrace_append]
  obtain ⟨c2, e⟩ := h c (c :: s)
  rw [e]
  simp [runTrace]

/-- A balanced push/pop wrapper is stack neutral. -/
lemma sn_wrap {γ : Type} (u : List (Tok γ)) (h : StackNeutral u) :
    StackNeutral (Tok.push :: (u ++ [Tok.pop])) :=
  fun c s => ⟨c, runTrace_wrap u h c s⟩

/-- A loop whose every iteration is stack neutral is stack neutral. -/
lemma sn_flatMap {γ α : Type} (l : List α) (f : α → List (Tok γ))
    (h : ∀ x ∈ l, StackNeutral (f x)) : StackNeutral (l.flatMap f) := by
  induction l with
  | nil =>
    rw [List.flatMap_nil]
    exact sn_nil
  | cons a l ih =>
    rw [List.flatMap_cons]
    exact sn_append _ _ (h a (List.mem_cons_self a l))
      (ih fun x hx => h x (List.mem_cons_of_mem a hx))

/-- drawHandDrawnCircle leaves the state stack untouched. -/
lemma sn_handCircle {γ : Type} (P : Prims γ) :
    StackNeutral (drawHandDrawnCircleTrace P) :=
  sn_mut_cons _ _ (sn_mut_cons _ _ (sn_mut_cons _ _ (sn_mut_cons _ _ sn_nil)))

/-- drawIrregularBlob is stack neutral: its push has a matching pop. -/
lemma sn_blob {γ : Type} (P : Prims γ) :
    StackNeutral (drawIrregularBlobTrace P) :=
  sn_mut_cons _ _ (sn_mut_cons _ _ (sn_wrap _
    (sn_mut_cons _ _ (sn_mut_cons _ _ (sn_mut_cons _ _ sn_nil)))))

/-- Every outer-layer trace is stack neutral. -/
lemma sn_displayOuter {γ : Type} (P : Prims γ) (typ : ℕ) (r p : ℚ) :
    StackNeutral (displayOuterAnimatedTrace P typ r p) := by
  unfold displayOuterAnimatedTrace
  split
  · exact sn_nil
  split
  · exact sn_flatMap _ _ (fun _ _ => sn_flatMap _ _ (fun _ _ => sn_blob P))
  · exact sn_mut_cons _ _ (sn_mut_cons _ _ (sn_mut_cons _ _
      (sn_flatMap _ _ (fun _ _ => sn_wrap _
        (sn_mut_cons _ _ (sn_mut_cons _ _ (sn_blob P)))))))
  · exact sn_mut_cons _ _ (sn_mut_cons _ _
      (sn_flatMap _ _ (fun _ _ => sn_mut_cons _ _ (sn_handCircle P))))
  · exact sn_mut_cons _ _ (sn_mut_cons _ _ (sn_mut_cons _ _
      (sn_mut_cons _ _ sn_nil)))
  · exact sn_nil

/-- Every middle-layer trace is stack neutral. -/
lemma sn_displayMiddle {γ : Type} (P : Prims γ) (typ : ℕ) (r p : ℚ) :
    StackNeutral (displayMiddleAnimatedTrace P typ r p) := by
  unfold displayMiddleAnimatedTrace
  split
  · exact sn_nil
  split
  · exact sn_flatMap _ _ (fun _ _ => sn_flatMap _ _ (fun _ _ => sn_blob P))
  · exact sn_mut_cons _ _ (sn_mut_cons _ _ (sn_mut_cons _ _
      (sn_flatMap _ _ (fun _ _ => sn_wrap _
        (sn_mut_cons _ _ (sn_mut_cons _ _ (sn_mut_cons _ _
          (sn_mut_cons _ _ sn_nil))))))))
  · exact sn_mut_cons _ _ (sn_mut_cons _ _ (sn_mut_cons _ _
      (sn_append _ _ (sn_handCircle P) (sn_handCircle P))))
  · exact sn_mut_cons _ _ (sn_mut_cons _ _
      (sn_flatMap _ _ (fun _ _ => sn_mut_cons _ _ (sn_mut_cons _ _ sn_nil))))
  · exact sn_nil

/-- The inner-layer trace is stack neutral. -/
lemma sn_displayInner {γ : Type} (P : Prims γ) (typ : ℕ) (p : ℚ) :
    StackNeutral (displayInnerAnimatedTrace P typ p) := by
  unfold displayInnerAnimatedTrace
  split
  · exact sn_nil
  refine sn_append _ _ (sn_handCircle P) ?_
  split
  · exact sn_blob P
  · exact sn_mut_cons _ _ (sn_mut_cons _ _ (sn_mut_cons _ _
      (sn_mut_cons _ _ sn_nil)))

/-! ## Claim theorems: master clock -/

/-- C1: the per-frame master progress is the cubic ease of the triangle
wave of the loop time: with timeInLoop = t mod 15000 the raw value is
timeInLoop/7500 on [0,7500) and (15000-timeInLoop)/7500 on
[7500,15000), passed through easeInOutCubic; masterProgress is 0 at
t = 0 and t = 15000, is 1 at t = 7500, stays in [0,1] for all t, and
is periodic with period 15000. -/
theorem masterProgress_triangle_ease :
    (∀ t : ℕ, masterPAt t =
      easeInOutCubic (if t % 15000 < 7500
        then ((t % 15000 : ℕ) : ℚ) / 7500
        else (15000 - ((t % 15000 : ℕ) : ℚ)) / 7500)) ∧
    masterPAt 0 = 0 ∧ masterPAt 7500 = 1 ∧ masterPAt 15000 = 0 ∧
    (∀ t : ℕ, 0 ≤ masterPAt t ∧ masterPAt t ≤ 1) ∧
    (∀ t : ℕ, masterPAt (t + 15000) = masterPAt t) := by
  refine ⟨?_, ?_, ?_, ?_, ?_, ?_⟩
  · intro t
    unfold masterPAt
    rw [rawMasterP_eq]
    by_cases h : t % 15000 < 7500
    · rw [if_pos h, if_pos (by exact_mod_cast h)]
    · rw [if_neg h, if_neg (by exact_mod_cast h)]
  · norm_num [masterPAt, rawMasterP_eq, easeInOutCubic]
  · norm_num [masterPAt, rawMasterP_eq, easeInOutCubic]
  · norm_num [masterPAt, rawMasterP_eq, easeInOutCubic]
  · intro t
    have h0 : (0:ℚ) ≤ ((t % 15000 : ℕ) : ℚ) := by positivity
    have h1 : ((t % 15000 : ℕ) : ℚ) < 15000 := by
      exact_mod_cast Nat.mod_lt t (by norm_num)
    obtain ⟨r0, r1⟩ := rawMasterP_mem _ h0 h1
    exact easeInOutCubic_mem _ r0 r1
  · intro t
    unfold masterPAt
    rw [Nat.add_mod_right]

/-- C2 counterexample: the master progress the frame computation
produces at timeInLoop = 7500 is not 0.5. -/
theorem masterP_at_half_loop_ne_half : masterPAt 7500 ≠ 1 / 2 := by
  norm_num [masterPAt, rawMasterP_eq, easeInOutCubic]

/-- C2 amended: at half the loop (timeInLoop = 7500) the raw triangle
value is 1, so the eased master progress is ease(1) = 1 (the peak of
the cycle); the cubic-eased midpoint value ease(0.5) = 0.5 is instead
attained at the quarter loop, timeInLoop = 3750. -/
theorem masterP_peak_at_half_loop :
    masterPAt 7500 = 1 ∧ masterPAt 3750 = 1 / 2 ∧
    easeInOutCubic (1 / 2) = 1 / 2 := by
  refine ⟨?_, ?_, ?_⟩ <;> norm_num [masterPAt, rawMasterP_eq, easeInOutCubic]

/-! ## Claim theorems: layer staging -/

/-- C3: Circle.display computes virtualTime t = masterP * 3500 and
layer progresses pInner = clamp(t/800,0,1),
pMiddle = clamp((t-800)/1200,0,1), pOuter = clamp((t-2000)/1500,0,1);
at virtual time 400 these are 0.5, 0, 0. -/
theorem layerProgress_clamps :
    (∀ m : ℚ, layerProgress m =
      (constrain (m * 3500 / 800) 0 1,
       constrain ((m * 3500 - 800) / 1200) 0 1,
       constrain ((m * 3500 - 2000) / 1500) 0 1)) ∧
    pInner 400 = 1 / 2 ∧ pMiddle 400 = 0 ∧ pOuter 400 = 0 := by
  refine ⟨?_, ?_, ?_, ?_⟩
  · intro m
    unfold layerProgress pInner pMiddle pOuter totalDuration
      innerDuration middleDuration outerDuration
    norm_num
  · norm_num [pInner, constrain, innerDuration]
  · norm_num [pMiddle, constrain, innerDuration, middleDuration]
  · norm_num [pOuter, constrain, innerDuration, middleDuration, outerDuration]

/-- C4: layer-progress ordering invariant: for virtualTime t ≥ 0, a
positive middle progress forces pInner = 1 and a positive outer
progress forces pMiddle = 1, by the clamp arithmetic alone. -/
theorem layerProgress_ordering (t : ℚ) (ht : 0 ≤ t) :
    (0 < pMiddle t → pInner t = 1) ∧ (0 < pOuter t → pMiddle t = 1) := by
  constructor
  · intro h
    unfold pMiddle constrain middleDuration innerDuration at h
    have hq : 0 < (t - 800) / 1200 := by
      rcases lt_min_iff.mp h with ⟨h1, _⟩
      rcases lt_max_iff.mp h1 with h2 | h2
      · exact h2
      · exact absurd h2 (lt_irrefl 0)
    have ht8 : (800:ℚ) < t := by
      rcases div_pos_iff.mp hq with ⟨h1, _⟩ | ⟨_, h2⟩
      · linarith
      · norm_num at h2
    unfold pInner constrain innerDuration
    have h1 : (1:ℚ) ≤ t / 800 := by
      rw [le_div_iff (by norm_num : (0:ℚ) < 800)]
      linarith
    rw [max_eq_left (by linarith), min_eq_right h1]
  · intro h
    unfold pOuter constrain outerDuration middleDuration innerDuration at h
    have hq : 0 < (t - (800 + 1200)) / 1500 := by
      rcases lt_min_iff.mp h with ⟨h1, _⟩
      rcases lt_max_iff.mp h1 with h2 | h2
      · exact h2
      · exact absurd h2 (lt_irrefl 0)
    have ht2 : (2000:ℚ) < t := by
      rcases div_pos_iff.mp hq with ⟨h1, _⟩ | ⟨_, h2⟩
      · linarith
      · norm_num at h2
    unfold pMiddle constrain middleDuration innerDuration
    have h1 : (1:ℚ) ≤ (t - 800) / 1200 := by
      rw [le_div_iff (by norm_num : (0:ℚ) < 1200)]
      linarith
    rw [max_eq_left (by linarith), min_eq_right h1]

/-! ## Claim theorems: songline network -/

/-- C5: segments are stored in insertion order of the nested pairwise
scan over connectable nodes (outer index ascending, inner index
ascending); the segment at index i starts i * 150 ms late; for every
masterProgress m, drawNetworkLines uses
totalNetworkTime = (count - 1) * 150 + 800, virtualTime = m *
totalNetworkTime, per segment localProgress =
clamp((virtualTime - startDelay)/800, 0, 1), draws nothing when
localProgress ≤ 0 and otherwise the line from the fixed start point to
lerp(start, end, localProgress). -/
theorem network_order_and_reveal :
    (∀ (w : ℚ) (nodes : List Node),
      prepareNetworkLines w nodes =
        nodes.enum.flatMap (fun p =>
          nodes.enum.filterMap (fun q =>
            if p.1 < q.1 ∧ connects w p.2 q.2
            then some (mkSegment p.2 q.2) else none))) ∧
    (∀ (lines : List Segment) (m : ℚ) (i : ℕ) (h : i < lines.length),
      (drawNetworkLines lines m)[i]? =
        some (
          let totalNetworkTime : ℚ := ((lines.length : ℚ) - 1) * 150 + 800
          let virtualTime := m * totalNetworkTime
          let startDelay : ℚ := (i : ℚ) * 150
          let localProgress := constrain ((virtualTime - startDelay) / 800) 0 1
          if localProgress ≤ 0 then none
          else some (lines[i].x1, lines[i].y1,
            lerp lines[i].x1 lines[i].x2 localProgress,
            lerp lines[i].y1 lines[i].y2 localProgress))) := by
  constructor
  · intro w nodes
    exact (prepare_enumFrom w nodes 0).symm
  · intro lines m i h
    unfold drawNetworkLines lineDelay lineGrowDuration
    simp only [List.getElem?_map, List.getElem?_enum,
      List.getElem?_eq_getElem h, Option.map_some']
    by_cases hp :
        0 < constrain ((m * (((lines.length : ℚ) - 1) * 150 + 800)
          - (i : ℚ) * 150) / 800) 0 1
    · rw [if_pos hp, if_neg (not_le.mpr hp)]
    · rw [if_neg hp, if_pos (not_lt.mp hp)]

/-- C5 witness: the reveal formula applied to a concrete two-segment
network at masterProgress 1/2, index 1. -/
theorem network_order_and_reveal_witness :
    1 < ([⟨0, 0, 100, 0⟩, ⟨0, 0, 0, 100⟩] : List Segment).length ∧
    (drawNetworkLines [⟨0, 0, 100, 0⟩, ⟨0, 0, 0, 100⟩] (1/2))[1]? =
      some (
        let totalNetworkTime : ℚ :=
          ((([⟨0, 0, 100, 0⟩, ⟨0, 0, 0, 100⟩] : List Segment).length : ℚ) - 1)
            * 150 + 800
        let virtualTime := (1/2 : ℚ) * totalNetworkTime
        let startDelay : ℚ := ((1 : ℕ) : ℚ) * 150
        let localProgress := constrain ((virtualTime - startDelay) / 800) 0 1
        if localProgress ≤ 0 then none
        else some ((0 : ℚ), (0 : ℚ),
          lerp 0 0 localProgress, lerp 0 100 localProgress)) :=
  ⟨by norm_num,
   network_order_and_reveal.2 [⟨0, 0, 100, 0⟩, ⟨0, 0, 0, 100⟩] (1/2) 1
     (by norm_num)⟩

/-- C6: for any pair of distinct connectable nodes (positions i < j in
the node list), prepareNetworkLines retains a segment between them if
and only if the Euclidean distance between their centres is strictly
below canvasWidth / 2.8. -/
theorem segment_iff_distance (w : ℚ) (hw : 0 < w) (nodes : List Node)
    (i j : ℕ) (c1 c2 : Node) (hij : i < j)
    (hi : nodes[i]? = some c1) (hj : nodes[j]? = some c2) :
    mkSegment c1 c2 ∈ prepareNetworkLines w nodes ↔
      Real.sqrt (((c1.x : ℝ) - (c2.x : ℝ)) ^ 2
          + ((c1.y : ℝ) - (c2.y : ℝ)) ^ 2) < (w : ℝ) / 2.8 := by
  rw [← connects_iff_dist w hw, mem_prepareNetworkLines]
  constructor
  · rintro ⟨i', j', d1, d2, hij', hi', hj', hc, heq⟩
    simp only [mkSegment, Segment.mk.injEq] at heq
    obtain ⟨hx1, hy1, hx2, hy2⟩ := heq
    unfold connects at hc ⊢
    rw [hx1, hy1, hx2, hy2]
    exact hc
  · intro hc
    exact ⟨i, j, c1, c2, hij, hi, hj, hc, rfl⟩

/-- C6 witness: with canvas width 28 (threshold 10) the nodes (0,0) and
(3,4), at Euclidean distance 5, are connected. -/
theorem segment_iff_distance_witness :
    (0:ℚ) < 28 ∧ (0:ℕ) < 1 ∧
    (([⟨0, 0⟩, ⟨3, 4⟩] : List Node)[0]? = some ⟨0, 0⟩) ∧
    (([⟨0, 0⟩, ⟨3, 4⟩] : List Node)[1]? = some ⟨3, 4⟩) ∧
    (mkSegment ⟨0, 0⟩ ⟨3, 4⟩ ∈ prepareNetworkLines 28 [⟨0, 0⟩, ⟨3, 4⟩] ↔
      Real.sqrt ((((0:ℚ) : ℝ) - ((3:ℚ) : ℝ)) ^ 2
          + (((0:ℚ) : ℝ) - ((4:ℚ) : ℝ)) ^ 2) < ((28:ℚ) : ℝ) / 2.8) :=
  ⟨by norm_num, by norm_num, rfl, rfl,
   segment_iff_distance 28 (by norm_num) [⟨0, 0⟩, ⟨3, 4⟩] 0 1 ⟨0, 0⟩ ⟨3, 4⟩
     (by norm_num) rfl rfl⟩

/-! ## Claim theorems: pattern renderers -/

/-- C7: for progress p in (0,1] the sine-perturbed wavy ring is built
from floor(240p) + 1 points and is closed exactly when p = 1 (open
whenever p < 1). -/
theorem wavy_ring_points_and_closure (r p : ℚ) (h0 : 0 < p) (h1 : p ≤ 1) :
    drawOuterRadialDashPattern r p =
      [DrawOp.wavyContour ((⌊240 * p⌋).toNat + 1) (decide (p = 1))] := by
  unfold drawOuterRadialDashPattern
  have hz : (0:ℤ) ≤ ⌊240 * p⌋ := Int.floor_nonneg.mpr (by positivity)
  have hpt : (⌊240 * p⌋ + 1).toNat = (⌊240 * p⌋).toNat + 1 := by omega
  rw [hpt]
  by_cases hp1 : p < 1
  · have hne : p ≠ 1 := ne_of_lt hp1
    rw [if_pos hp1]
    simp [hne]
  · have heq : p = 1 := le_antisymm h1 (not_lt.mp hp1)
    rw [if_neg hp1]
    simp [heq]

/-- C7 witness: at p = 1/2 the wavy ring has 121 points and is open. -/
theorem wavy_ring_points_and_closure_witness :
    0 < (1/2 : ℚ) ∧ (1/2 : ℚ) ≤ 1 ∧
    drawOuterRadialDashPattern 8 (1/2) = [DrawOp.wavyContour 121 false] := by
  refine ⟨by norm_num, by norm_num, ?_⟩
  rw [wavy_ring_points_and_closure 8 (1/2) (by norm_num) (by norm_num)]
  norm_num
  rfl

/-- C8: every per-layer renderer emits no drawing operation when its
progress is p ≤ 0, and at p = 1 emits exactly its pattern type's fully
resolved static form (maximal ring sets, 40 spokes, 8 U-shapes, the
241-vertex closed wavy contour, the 50-vertex spiral, and the unscaled
radii). -/
theorem layer_renderers_noop_and_full (typ : ℕ) (r p : ℚ) (hr : 0 < r) :
    (p ≤ 0 → displayInnerAnimated typ r p = [] ∧
      displayMiddleAnimated typ r p = [] ∧
      displayOuterAnimated typ r p = []) ∧
    displayOuterAnimated typ r 1 = outerFullForm typ r ∧
    displayMiddleAnimated typ r 1 = middleFullForm typ r ∧
    displayInnerAnimated typ r 1 = innerFullForm typ r := by
  have hr' : r ≠ 0 := ne_of_gt hr
  have h10 : ¬ (1:ℚ) ≤ 0 := by norm_num
  refine ⟨?_, ?_, ?_, ?_⟩
  · intro hp
    refine ⟨?_, ?_, ?_⟩
    · unfold displayInnerAnimated
      rw [if_pos hp]
    · unfold displayMiddleAnimated
      rw [if_pos hp]
    · unfold displayOuterAnimated
      rw [if_pos hp]
  · -- outer layer at p = 1
    obtain _ | _ | _ | _ | typ := typ
    · show drawOuterDotsPattern r 1 = _
      unfold drawOuterDotsPattern outerFullForm
      rw [show r * 0.95 * 1 = r * 0.95 by ring,
        stepValues_mul r 0.65 0.09 0.95 hr', natsLT_outer_dots]
      simp only [List.range_succ, List.range_zero, List.nil_append,
        List.cons_append, List.map_cons, List.map_nil, List.cons.injEq,
        and_true, DrawOp.blobRing.injEq]
      norm_num
      and_intros <;> ring
    · show drawOuterRadiatingLinesPattern r 1 = _
      unfold drawOuterRadiatingLinesPattern outerFullForm
      rw [show (40:ℚ) * 1 = ((40:ℕ) : ℚ) by norm_num, natsLT_natCast]
    · show drawOuterStripedRingPattern r 1 = _
      unfold drawOuterStripedRingPattern outerFullForm
      simp only [List.range_succ, List.range_zero, List.nil_append,
        List.cons_append, List.map_cons, List.map_nil, List.cons.injEq,
        and_true, DrawOp.handCircle.injEq, lt_irrefl, if_false]
      unfold p5map
      norm_num
    · show drawOuterRadialDashPattern r 1 = _
      unfold drawOuterRadialDashPattern outerFullForm
      norm_num
      rfl
    · show displayOuterAnimated (typ + 4) r 1 = outerFullForm (typ + 4) r
      unfold displayOuterAnimated
      rw [if_neg h10]
      rfl
  · -- middle layer at p = 1
    obtain _ | _ | _ | _ | typ := typ
    · show drawMiddleConcentricDotsPattern r 1 = _
      unfold drawMiddleConcentricDotsPattern middleFullForm
      rw [show r * 0.5 * 1 = r * 0.5 by ring,
        show r * 0.04 * 1.5 = r * 0.06 by ring,
        stepValues_mul r 0.2 0.06 0.5 hr', natsLT_middle_dots]
      simp only [List.range_succ, List.range_zero, List.nil_append,
        List.cons_append, List.map_cons, List.map_nil, List.cons.injEq,
        and_true, DrawOp.blobRing.injEq]
      norm_num
      and_intros <;> ring
    · show drawMiddleUshapePattern r 1 = _
      unfold drawMiddleUshapePattern middleFullForm
      rw [show (8:ℚ) * 1 = ((8:ℕ) : ℚ) by norm_num, natsLT_natCast]
    · show drawMiddleSolidRings r 1 = _
      unfold drawMiddleSolidRings middleFullForm
      norm_num
    · show drawMiddleConcentricRings r 1 = _
      unfold drawMiddleConcentricRings middleFullForm
      simp only [List.range_succ, List.range_zero, List.nil_append,
        List.cons_append, List.map_cons, List.map_nil, List.cons.injEq,
        and_true, DrawOp.ringContour.injEq]
      unfold p5map
      norm_num
      and_intros <;> ring
    · show displayMiddleAnimated (typ + 4) r 1 = middleFullForm (typ + 4) r
      unfold displayMiddleAnimated
      rw [if_neg h10]
      rfl
  · -- inner layer at p = 1
    unfold displayInnerAnimated innerFullForm
    rw [if_neg h10]
    by_cases ht : typ = 0
    · rw [if_pos ht, if_pos ht]
      norm_num
    · rw [if_neg ht, if_neg ht]
      norm_num
      rfl

/-- C8 witness: the no-op and fully-resolved forms at pattern type 3,
radius 8, progress -1 and 1. -/
theorem layer_renderers_noop_and_full_witness :
    (0:ℚ) < 8 ∧ (-1:ℚ) ≤ 0 ∧
    (displayInnerAnimated 3 8 (-1) = [] ∧
      displayMiddleAnimated 3 8 (-1) = [] ∧
      displayOuterAnimated 3 8 (-1) = []) ∧
    displayOuterAnimated 3 8 1 = outerFullForm 3 8 ∧
    displayMiddleAnimated 3 8 1 = middleFullForm 3 8 ∧
    displayInnerAnimated 3 8 1 = innerFullForm 3 8 :=
  ⟨by norm_num, by norm_num,
   (layer_renderers_noop_and_full 3 8 (-1) (by norm_num)).1 (by norm_num),
   (layer_renderers_noop_and_full 3 8 1 (by norm_num)).2⟩

/-! ## Claim theorems: layout -/

/-- C9: layout is independent of the random source: any two random
streams give the identical sequence of 25 motif centres, equal to the
arithmetic progressions along the five fixed diagonal lines, and every
motif has the shared radius width / 8; the stream can influence only
the connectable-node selection, pattern variants and colours. -/
theorem layout_centers_deterministic (w h : ℚ) (g1 g2 : ℕ → ℚ) :
    ((createFixedLayout g1 w h).1.map (fun c => (c.x, c.y))
      = (createFixedLayout g2 w h).1.map (fun c => (c.x, c.y))) ∧
    ((createFixedLayout g1 w h).1.map (fun c => (c.x, c.y))
      = expectedCenters w h) ∧
    (createFixedLayout g1 w h).1.length = 25 ∧
    (∀ c ∈ (createFixedLayout g1 w h).1, c.r = w / 8) := by
  have key : ∀ g : ℕ → ℚ,
      (createFixedLayout g w h).1.map (fun c => (c.x, c.y))
        = expectedCenters w h := by
    intro g
    unfold createFixedLayout expectedCenters addCirclesOnLine
    simp only [List.map_append, addCirclesOnLineAux_centers,
      List.flatMap_cons, List.flatMap_nil, List.append_nil,
      List.range_eq_range', List.append_assoc]
  have hlen : (createFixedLayout g1 w h).1.length = 25 := by
    have h1 := congrArg List.length (key g1)
    rw [List.length_map] at h1
    rw [h1]
    rfl
  refine ⟨(key g1).trans (key g2).symm, key g1, hlen, ?_⟩
  intro c hc
  unfold createFixedLayout at hc
  simp only [List.mem_append, addCirclesOnLine] at hc
  rcases hc with ((((hc | hc) | hc) | hc) | hc) <;>
    exact addCirclesOnLineAux_radius _ _ _ _ _ _ _ _ _ c hc

/-! ## Claim theorems: drawing-state discipline -/

/-- C10: every push in the render path has a matching pop on every
execution path: Circle.display and drawNetworkLines restore the entire
ambient drawing state (current state and stack) on every call, for any
pattern types, progress and segment list, so rendering one motif or the
network cannot perturb later elements of the frame; drawIrregularBlob,
whose fill and noStroke precede its push, still leaves the state stack
exactly as it found it. -/
theorem render_state_restoration {γ : Type} (P : Prims γ)
    (typO typM typI : ℕ) (r masterP : ℚ) (lines : List Segment)
    (c : γ) (s : List γ) :
    runTrace (displayTrace P typO typM typI r masterP) (c, s) = some (c, s) ∧
    runTrace (drawNetworkLinesTrace P lines masterP) (c, s) = some (c, s) ∧
    (∃ c2, runTrace (drawIrregularBlobTrace P) (c, s) = some (c2, s)) := by
  refine ⟨?_, ?_, sn_blob P c s⟩
  · unfold displayTrace
    apply runTrace_wrap
    exact sn_mut_cons _ _
      (sn_append _ _
        (sn_append _ _
          (sn_append _ _ (sn_handCircle P) (sn_displayInner P typI _))
          (sn_displayMiddle P typM r _))
        (sn_displayOuter P typO r _))
  · unfold drawNetworkLinesTrace
    apply runTrace_wrap
    exact sn_mut_cons _ _ (sn_mut_cons _ _
      (sn_flatMap _ _ (fun q _ => by
        dsimp only
        split
        · exact sn_mut_cons _ _ sn_nil
        · exact sn_nil)))

/-- C4 witness: the ordering invariant applied at virtual time 1000. -/
theorem layerProgress_ordering_witness :
    (0:ℚ) ≤ 1000 ∧
    ((0 < pMiddle 1000 → pInner 1000 = 1) ∧
     (0 < pOuter 1000 → pMiddle 1000 = 1)) :=
  ⟨by norm_num, layerProgress_ordering 1000 (by norm_num)⟩

end Sketch
